import Mathlib

/-!
# Verification of the CHIP-8 interpreter core (`src/chip8.cpp`)

This file gives a shallow embedding of the interpreter core of the CHIP-8
emulator (`chip8::emulate_cycle`, `chip8::set_key` and the `0xDXYN` sprite
drawing loop) and proves properties of it.

Modelling conventions:

* Every `unsigned char` array of the `chip8` class (`memory[4096]`, `V[16]`,
  `gfx[64*32]`, `stack[16]`, `key[16]`) is modelled as a total function
  `Nat → Nat`; reads go through `rd8`, which reduces the stored value
  mod 256, expressing the 8-bit cell width.  The class header is not among
  the sources, but `chip8::initialize` iterates each of these arrays —
  including `stack` — with `unsigned char &` references, which compiles
  only if the element type is `unsigned char`.  In particular the call
  stack holds 8-bit cells, so `stack[sp] = pc + 2` stores the return
  address truncated mod 256.
* The scalar members `pc`, `I` and `opcode` are `unsigned short`
  (16 bits); assignments that can exceed 16 bits reduce mod 65536.
  `delay_timer` and `sound_timer` are `unsigned char` countdown values.
* `rand()` is external state; its value for the current step is carried in
  the `rnd` field and the `0xCXNN` handler reads `rnd % 256 &&& NN`,
  matching `(rand() % 256) & (opcode & 0x00FF)`.
* Console diagnostics (`std::cerr`, `printf`) are modelled as a list of
  `LogMsg` values returned next to the post-state; they are not part of
  the machine state.
* Early `return` statements of `emulate_cycle` (stack overflow, stack
  underflow, `FX0A` with no key pressed) are modelled by a Boolean
  "returned early" flag; an early return skips the timer tick.
-/

/-- A console diagnostic emitted during a cycle (`std::cerr` / `printf`). -/
inductive LogMsg where
  /-- "Unknown opcode: ..." -/
  | unknown : Nat → LogMsg
  /-- "Stack underflow!" -/
  | underflow : LogMsg
  /-- "Stack overflow!" -/
  | overflow : LogMsg
  /-- "Memory access out of bounds!" -/
  | memOOB : LogMsg
  /-- "Sound timer ended!" -/
  | soundEnd : LogMsg
  /-- "Invalid key index: ..." -/
  | invalidKey : Int → LogMsg
  deriving DecidableEq, Repr

/-- The machine state of the `chip8` class (data members of the class).
The widths follow the spec's data model and the `unsigned char &`
range-`for` loops of `chip8::initialize` (see the module comment). -/
@[ext]
structure Chip8State where
  /-- `unsigned char memory[4096]` -/
  mem : Nat → Nat
  /-- `unsigned char V[16]` -/
  V : Nat → Nat
  /-- `unsigned char gfx[64 * 32]` -/
  gfx : Nat → Nat
  /-- `unsigned char stack[16]` (8-bit cells, see module comment) -/
  stack : Nat → Nat
  /-- `unsigned char key[16]` -/
  key : Nat → Nat
  /-- `unsigned short pc` -/
  pc : Nat
  /-- `unsigned short I` -/
  I : Nat
  /-- stack pointer `sp` (0–16) -/
  sp : Nat
  /-- `unsigned char delay_timer` -/
  delay_timer : Nat
  /-- `unsigned char sound_timer` -/
  sound_timer : Nat
  /-- `unsigned short opcode` latch, assigned by the fetch -/
  opcode : Nat
  /-- `bool drawFlag` -/
  drawFlag : Bool
  /-- value of the next `rand()` call (external libc state) -/
  rnd : Nat

/-- Read one 8-bit cell of an `unsigned char` array. -/
def rd8 (f : Nat → Nat) (a : Nat) : Nat := f a % 256

/-- Write one cell of an array (`f[a] = v`). -/
def upd (f : Nat → Nat) (a v : Nat) : Nat → Nat := fun j => if j = a then v else f j

/-- The fetch of `emulate_cycle`:
`opcode = memory[pc] << 8 | memory[pc + 1]` (big-endian, two bytes). -/
def emuFetch (s : Chip8State) : Nat := rd8 s.mem s.pc * 256 + rd8 s.mem (s.pc + 1)

/-- The memory indices read by the fetch `memory[pc] << 8 | memory[pc + 1]`.
There is no bounds check before these reads in `emulate_cycle`. -/
def fetchAddrs (s : Chip8State) : List Nat := [s.pc, s.pc + 1]

/-- One iteration of the inner (`x`) loop of the `0xDXYN` handler, acting on
the pair `(V, gfx)`.  Note that the handler reads `V[x]` and `V[y]` afresh
on every iteration, and that it may write `V[0xF]` mid-loop. -/
def drawBit (mem : Nat → Nat) (iR x y yy xx : Nat)
    (a : (Nat → Nat) × (Nat → Nat)) : (Nat → Nat) × (Nat → Nat) :=
  let row := rd8 mem (iR + yy)
  if row &&& (0x80 >>> xx) ≠ 0 then
    let px := (rd8 a.1 x + xx) % 64
    let py := (rd8 a.1 y + yy) % 32
    let idx := py * 64 + px
    -- `index >= 0` of the source is vacuous over Nat
    let v2 := if idx < 2048 ∧ rd8 a.2 idx = 1 then upd a.1 15 1 else a.1
    let g2 := if idx < 2048 then upd a.2 idx (rd8 a.2 idx ^^^ 1) else a.2
    (v2, g2)
  else a

/-- One iteration of the outer (`y`) loop of the `0xDXYN` handler:
the row is processed only if `I + y < 4096`. -/
def drawRow (mem : Nat → Nat) (iR x y yy : Nat)
    (a : (Nat → Nat) × (Nat → Nat)) : (Nat → Nat) × (Nat → Nat) :=
  if iR + yy < 4096 then
    (List.range 8).foldl (fun b xx => drawBit mem iR x y yy xx b) a
  else a

/-- The two nested loops of the `0xDXYN` handler. -/
def drawLoop (mem : Nat → Nat) (iR x y n : Nat)
    (a : (Nat → Nat) × (Nat → Nat)) : (Nat → Nat) × (Nat → Nat) :=
  (List.range n).foldl (fun b yy => drawRow mem iR x y yy b) a

/-- The `0xDXYN` handler: `V[0xF] = 0`, run the nested draw loops,
`drawFlag = true`, `pc += 2`. -/
def execD (s : Chip8State) (op : Nat) : Chip8State :=
  let x := op / 256 % 16
  let y := op / 16 % 16
  let n := op % 16
  let a := drawLoop s.mem s.I x y n (upd s.V 15 0, s.gfx)
  { s with V := a.1, gfx := a.2, drawFlag := true, pc := (s.pc + 2) % 65536 }

/-- The inner switch of the `0x8000` family, acting on the register file.
Returns the new register file and the diagnostics.  The common `pc += 2`
of the family happens in `execOp` (it follows the inner switch). -/
def exec8 (V : Nat → Nat) (op : Nat) : (Nat → Nat) × List LogMsg :=
  let x := op / 256 % 16
  let y := op / 16 % 16
  let k := op % 16
  if k = 0 then (upd V x (rd8 V y), [])
  else if k = 1 then (upd V x (rd8 V x ||| rd8 V y), [])
  else if k = 2 then (upd V x (rd8 V x &&& rd8 V y), [])
  else if k = 3 then (upd V x (rd8 V x ^^^ rd8 V y), [])
  else if k = 4 then
    -- `if (V[y] > 0xFF - V[x]) V[0xF] = 1 else V[0xF] = 0; V[x] += V[y];`
    let V1 := upd V 15 (if 255 - rd8 V x < rd8 V y then 1 else 0)
    (upd V1 x ((rd8 V1 x + rd8 V1 y) % 256), [])
  else if k = 5 then
    let V1 := upd V 15 (if rd8 V y ≤ rd8 V x then 1 else 0)
    (upd V1 x ((rd8 V1 x + 256 - rd8 V1 y) % 256), [])
  else if k = 6 then
    let V1 := upd V 15 (rd8 V x &&& 1)
    (upd V1 x (rd8 V1 x >>> 1), [])
  else if k = 7 then
    let V1 := upd V 15 (if rd8 V x ≤ rd8 V y then 1 else 0)
    (upd V1 x ((rd8 V1 y + 256 - rd8 V1 x) % 256), [])
  else if k = 14 then
    let V1 := upd V 15 ((rd8 V x &&& 128) >>> 7)
    (upd V1 x (rd8 V1 x <<< 1 % 256), [])
  else (V, [LogMsg.unknown op])

/-- The inner switch of the `0xF000` family (`switch (opcode & 0x00FF)`).
The Boolean is the early-return flag (`FX0A` with no key pressed). -/
def execF (s : Chip8State) (op : Nat) : Chip8State × List LogMsg × Bool :=
  let x := op / 256 % 16
  let nn := op % 256
  if nn = 0x07 then
    ({ s with V := upd s.V x (s.delay_timer % 256), pc := (s.pc + 2) % 65536 }, [], false)
  else if nn = 0x0A then
    -- scan keys 0..15 ascending; store the first pressed index, else return
    match (List.range 16).find? (fun i => rd8 s.key i != 0) with
    | some i => ({ s with V := upd s.V x i, pc := (s.pc + 2) % 65536 }, [], false)
    | none => (s, [], true)
  else if nn = 0x15 then
    ({ s with delay_timer := rd8 s.V x, pc := (s.pc + 2) % 65536 }, [], false)
  else if nn = 0x18 then
    ({ s with sound_timer := rd8 s.V x, pc := (s.pc + 2) % 65536 }, [], false)
  else if nn = 0x1E then
    ({ s with I := (s.I + rd8 s.V x) % 65536, pc := (s.pc + 2) % 65536 }, [], false)
  else if nn = 0x29 then
    ({ s with I := rd8 s.V x * 5, pc := (s.pc + 2) % 65536 }, [], false)
  else if nn = 0x33 then
    -- BCD store, guarded by `if (I < 4093)`
    let v := rd8 s.V x
    if s.I < 4093 then
      ({ s with
          mem := upd (upd (upd s.mem s.I (v / 100)) (s.I + 1) (v / 10 % 10)) (s.I + 2) (v % 10),
          pc := (s.pc + 2) % 65536 }, [], false)
    else
      ({ s with pc := (s.pc + 2) % 65536 }, [LogMsg.memOOB], false)
  else if nn = 0x55 then
    if s.I + x < 4096 then
      ({ s with
          mem := (List.range (x + 1)).foldl (fun m i => upd m (s.I + i) (rd8 s.V i)) s.mem,
          pc := (s.pc + 2) % 65536 }, [], false)
    else
      ({ s with pc := (s.pc + 2) % 65536 }, [LogMsg.memOOB], false)
  else if nn = 0x65 then
    if s.I + x < 4096 then
      ({ s with
          V := (List.range (x + 1)).foldl (fun w i => upd w i (rd8 s.mem (s.I + i))) s.V,
          pc := (s.pc + 2) % 65536 }, [], false)
    else
      ({ s with pc := (s.pc + 2) % 65536 }, [LogMsg.memOOB], false)
  else
    ({ s with pc := (s.pc + 2) % 65536 }, [LogMsg.unknown op], false)

/-- The decode/execute switch of `emulate_cycle`
(`switch (opcode & 0xF000)`), acting on the state after the fetch latched
the opcode.  Returns the post-state, the diagnostics and the early-return
flag.  The `0xF000` case has no `break` and therefore falls through into
the switch's `default` case, which logs "Unknown opcode" and adds another
`pc += 2` — this is reproduced faithfully below. -/
def execOp (s : Chip8State) (op : Nat) : Chip8State × List LogMsg × Bool :=
  let fam := op / 4096
  let x := op / 256 % 16
  let y := op / 16 % 16
  let nn := op % 256
  let nnn := op % 4096
  if fam = 0 then
    if nn = 0xE0 then
      ({ s with gfx := fun _ => 0, drawFlag := true, pc := (s.pc + 2) % 65536 }, [], false)
    else if nn = 0xEE then
      if 0 < s.sp then
        ({ s with sp := s.sp - 1, pc := rd8 s.stack (s.sp - 1) }, [], false)
      else (s, [LogMsg.underflow], true)
    else ({ s with pc := (s.pc + 2) % 65536 }, [LogMsg.unknown op], false)
  else if fam = 1 then ({ s with pc := nnn }, [], false)
  else if fam = 2 then
    if 16 ≤ s.sp then (s, [LogMsg.overflow], true)
    else
      -- `stack[sp] = pc + 2`: the cell is `unsigned char`, the value truncates
      ({ s with stack := upd s.stack s.sp ((s.pc + 2) % 256), sp := s.sp + 1, pc := nnn },
       [], false)
  else if fam = 3 then
    ({ s with pc := (s.pc + if rd8 s.V x = nn then 4 else 2) % 65536 }, [], false)
  else if fam = 4 then
    ({ s with pc := (s.pc + if rd8 s.V x = nn then 2 else 4) % 65536 }, [], false)
  else if fam = 5 then
    -- the low nibble is not inspected: 5XY1..5XYF behave like 5XY0
    ({ s with pc := (s.pc + if rd8 s.V x = rd8 s.V y then 4 else 2) % 65536 }, [], false)
  else if fam = 6 then
    ({ s with V := upd s.V x nn, pc := (s.pc + 2) % 65536 }, [], false)
  else if fam = 7 then
    ({ s with V := upd s.V x ((rd8 s.V x + nn) % 256), pc := (s.pc + 2) % 65536 }, [], false)
  else if fam = 8 then
    let r := exec8 s.V op
    ({ s with V := r.1, pc := (s.pc + 2) % 65536 }, r.2, false)
  else if fam = 9 then
    -- the low nibble is not inspected: 9XY1..9XYF behave like 9XY0
    ({ s with pc := (s.pc + if rd8 s.V x = rd8 s.V y then 2 else 4) % 65536 }, [], false)
  else if fam = 10 then ({ s with I := nnn, pc := (s.pc + 2) % 65536 }, [], false)
  else if fam = 11 then ({ s with pc := (nnn + rd8 s.V 0) % 65536 }, [], false)
  else if fam = 12 then
    ({ s with V := upd s.V x (s.rnd % 256 &&& nn), pc := (s.pc + 2) % 65536 }, [], false)
  else if fam = 13 then (execD s op, [], false)
  else if fam = 14 then
    if nn = 0x9E then
      ({ s with pc := (s.pc + if rd8 s.key (rd8 s.V x) ≠ 0 then 4 else 2) % 65536 }, [], false)
    else if nn = 0xA1 then
      ({ s with pc := (s.pc + if rd8 s.key (rd8 s.V x) = 0 then 4 else 2) % 65536 }, [], false)
    else ({ s with pc := (s.pc + 2) % 65536 }, [LogMsg.unknown op], false)
  else
    -- fam = 15.  `case 0xF000:` runs its inner switch, has no `break`,
    -- and falls through into `default:` (log "Unknown opcode", pc += 2),
    -- unless the inner handler returned early (FX0A with no key).
    let r := execF s op
    if r.2.2 then r
    else ({ r.1 with pc := (r.1.pc + 2) % 65536 }, r.2.1 ++ [LogMsg.unknown op], false)

/-- The end-of-cycle timer tick:
decrement `delay_timer` if positive; decrement `sound_timer` if positive,
printing "Sound timer ended!" when it was exactly 1. -/
def tick (s : Chip8State) : Chip8State × List LogMsg :=
  let s1 := if 0 < s.delay_timer then { s with delay_timer := s.delay_timer - 1 } else s
  if 0 < s1.sound_timer then
    ({ s1 with sound_timer := s1.sound_timer - 1 },
     if s1.sound_timer = 1 then [LogMsg.soundEnd] else [])
  else (s1, [])

/-- `chip8::emulate_cycle`: fetch, dispatch, then tick the timers unless the
handler returned early. -/
def emulate_cycle (s : Chip8State) : Chip8State × List LogMsg :=
  let op := emuFetch s
  let s1 := { s with opcode := op }
  let r := execOp s1 op
  if r.2.2 then (r.1, r.2.1)
  else
    let t := tick r.1
    (t.1, r.2.1 ++ t.2)

/-- The post-state of one `emulate_cycle` call. -/
def stepS (s : Chip8State) : Chip8State := (emulate_cycle s).1

/-- The diagnostics emitted by one `emulate_cycle` call. -/
def stepLog (s : Chip8State) : List LogMsg := (emulate_cycle s).2

/-- `chip8::set_key`: set a key flag if the index is in 0..15,
else log "Invalid key index". -/
def set_key (s : Chip8State) (ki : Int) (pressed : Bool) : Chip8State × List LogMsg :=
  if 0 ≤ ki ∧ ki < 16 then
    ({ s with key := upd s.key ki.toNat (if pressed then 1 else 0) }, [])
  else (s, [LogMsg.invalidKey ki])

/-! ## Characterisation of the sprite draw

`targets` lists the framebuffer indices a `DXYN` draw toggles (rows with
`I + row < 4096`, set bits, the source's coordinate formula); `toggleList`
and `process` replay the handler's sequential toggle / collision check. -/

/-- Framebuffer indices toggled by one sprite row (empty if the row address
is out of bounds). -/
def rowTargets (mem : Nat → Nat) (iR vx vy yy : Nat) : List Nat :=
  if iR + yy < 4096 then
    ((List.range 8).filter (fun xx => rd8 mem (iR + yy) &&& (0x80 >>> xx) != 0)).map
      (fun xx => (vy + yy) % 32 * 64 + (vx + xx) % 64)
  else []

/-- All framebuffer indices toggled by a `DXYN` draw with the given
memory, I, coordinates and height. -/
def targets (mem : Nat → Nat) (iR vx vy n : Nat) : List Nat :=
  (List.range n).flatMap (fun yy => rowTargets mem iR vx vy yy)

/-- XOR-toggle each listed pixel in turn. -/
def toggleList (g : Nat → Nat) (l : List Nat) : Nat → Nat :=
  l.foldl (fun h i => upd h i (rd8 h i ^^^ 1)) g

/-- Replay of the draw on `(V, gfx)` over a list of pixel indices: at each
index, first the collision check (`V[0xF] = 1` if the pixel is set), then
the toggle. -/
def process (a : (Nat → Nat) × (Nat → Nat)) (l : List Nat) :
    (Nat → Nat) × (Nat → Nat) :=
  l.foldl
    (fun b i => ((if rd8 b.2 i = 1 then upd b.1 15 1 else b.1), upd b.2 i (rd8 b.2 i ^^^ 1)))
    a

/-! ## Concrete test states

`baseState` is the reset state produced by `chip8::initialize` (the 80-byte
font at addresses 0..79 is omitted: none of the states below ever reads
below 0x200).  The other fixtures place a program at `pc = 0x200`. -/

/-- The zeroed machine after reset: `pc = 0x200`, everything else 0. -/
def baseState : Chip8State :=
  { mem := fun _ => 0, V := fun _ => 0, gfx := fun _ => 0, stack := fun _ => 0,
    key := fun _ => 0, pc := 0x200, I := 0, sp := 0, delay_timer := 0,
    sound_timer := 0, opcode := 0, drawFlag := false, rnd := 0 }

/-- `FX07` with `x = 0` at `pc = 0x200`, `delay_timer = 5`. -/
def c1state : Chip8State :=
  { baseState with
    mem := fun a => if a = 0x200 then 0xF0 else if a = 0x201 then 0x07 else 0
    delay_timer := 5 }

/-- `2NNN` call of 0x400 at `pc = 0x200`; `00EE` return at 0x400. -/
def c2state : Chip8State :=
  { baseState with
    mem := fun a =>
      if a = 0x200 then 0x24 else if a = 0x400 then 0x00
      else if a = 0x401 then 0xEE else 0 }

/-- A state with `pc = 4095` (> 4094), memory all zero. -/
def c3state : Chip8State := { baseState with pc := 4095 }

/-- Opcode 0x5011 (a `5XY1`, not one of the 35 standard instructions)
at `pc = 0x200`, with `V0 = V1 = 0`. -/
def c4state : Chip8State :=
  { baseState with
    mem := fun a => if a = 0x200 then 0x50 else if a = 0x201 then 0x11 else 0 }

/-- `FX33` with `x = 0`, `V0 = 156` and `I = 4093`
(so the three digit cells 4093, 4094, 4095 are all in bounds). -/
def c5state : Chip8State :=
  { baseState with
    mem := fun a => if a = 0x200 then 0xF0 else if a = 0x201 then 0x33 else 0
    V := fun i => if i = 0 then 156 else 0
    I := 4093 }

/-- Same as `c5state` but with `I = 4092`. -/
def c5state2 : Chip8State := { c5state with I := 4092 }

/-- `2NNN` call fetched with the stack already full (`sp = 16`),
with both timers live so a tick would be observable. -/
def c6over : Chip8State :=
  { baseState with
    mem := fun a => if a = 0x200 then 0x23 else 0
    sp := 16
    delay_timer := 7
    sound_timer := 1 }

/-- `00EE` return fetched with the stack empty (`sp = 0`),
with both timers live so a tick would be observable. -/
def c6under : Chip8State :=
  { baseState with
    mem := fun a => if a = 0x201 then 0xEE else 0
    delay_timer := 7
    sound_timer := 1 }

/-- `FX0A` with `x = 2` at `pc = 0x200`, no key pressed,
both timers live. -/
def c7state : Chip8State :=
  { baseState with
    mem := fun a => if a = 0x200 then 0xF2 else if a = 0x201 then 0x0A else 0
    delay_timer := 3
    sound_timer := 1 }

/-- `c7state` after one step and after key 3 was pressed via `set_key`. -/
def c7after : Chip8State := (set_key (stepS c7state) 3 true).1

/-- Draw fixture: sprite byte 0xC0 (two set bits) at `I = 0x300`,
framebuffer clear, all registers 0. -/
def c8state : Chip8State :=
  { baseState with
    mem := fun a => if a = 0x300 then 0xC0 else 0
    I := 0x300 }

/-- First `DXYN` draw on `c8state` with opcode 0xDF01 (`x = 0xF`!). -/
def c8s1 : Chip8State := execD c8state 0xDF01

/-- Second identical draw. -/
def c8s2 : Chip8State := execD c8s1 0xDF01

/-- Draw fixture for the amended double-draw law: opcode 0xD011
(`x = 0`, `y = 1`, `n = 1`), one-pixel sprite 0x80 at `I = 0x300`. -/
def w8state : Chip8State :=
  { baseState with
    mem := fun a => if a = 0x300 then 0x80 else 0
    I := 0x300 }

/-- `8XY4` with `x = 0`, `y = 1`, `V0 = 0xFF`, `V1 = 0x01` (carry case). -/
def c9state : Chip8State :=
  { baseState with
    mem := fun a => if a = 0x200 then 0x80 else if a = 0x201 then 0x14 else 0
    V := fun i => if i = 0 then 0xFF else if i = 1 then 0x01 else 0 }

/-- `8XY4` with `x = 0`, `y = 1`, `V0 = 0x01`, `V1 = 0x01` (no-carry case). -/
def c9state2 : Chip8State :=
  { c9state with V := fun i => if i = 0 ∨ i = 1 then 0x01 else 0 }

/-- `DXYN` with `n = 0` (opcode 0xD230): the draw loop body never runs. -/
def c10state : Chip8State :=
  { baseState with
    mem := fun a => if a = 0x200 then 0xD2 else if a = 0x201 then 0x30 else 0 }

/-- Family-0 opcode 0x0001: not 00E0, not 00EE, hence unrecognized. -/
def c4unknown : Chip8State :=
  { baseState with
    mem := fun a => if a = 0x201 then 0x01 else 0
    delay_timer := 9 }

/-! ## Basic lemmas -/

theorem rd8_lt (f : Nat → Nat) (a : Nat) : rd8 f a < 256 :=
  Nat.mod_lt _ (by norm_num)

theorem rd8_upd_self (f : Nat → Nat) (a v : Nat) : rd8 (upd f a v) a = v % 256 := by
  simp [rd8, upd]

theorem rd8_upd_ne (f : Nat → Nat) {a b : Nat} (v : Nat) (h : b ≠ a) :
    rd8 (upd f a v) b = rd8 f b := by
  simp [rd8, upd, h]


theorem ite_fst_opcode {c : Prop} [Decidable c] {a b : Chip8State × List LogMsg × Bool} {o : Nat}
    (ha : a.1.opcode = o) (hb : b.1.opcode = o) : (if c then a else b).1.opcode = o := by
  split <;> assumption

theorem execF_opcode (s : Chip8State) (op : Nat) : (execF s op).1.opcode = s.opcode := by
  unfold execF
  dsimp only
  repeat' (first | apply ite_fst_opcode | rfl)
  all_goals cases hk : (List.range 16).find? (fun i => rd8 s.key i != 0) <;> rfl

theorem execOp_opcode (s : Chip8State) (op : Nat) : (execOp s op).1.opcode = s.opcode := by
  unfold execOp
  dsimp only
  repeat' (first | apply ite_fst_opcode | rfl)
  all_goals cases hk : (List.range 16).find? (fun i => rd8 s.key i != 0) <;> rfl

theorem tick_fst (s : Chip8State) :
    (tick s).1 =
      { s with delay_timer := s.delay_timer - 1, sound_timer := s.sound_timer - 1 } := by
  have hd0 : ¬ 0 < s.delay_timer → s.delay_timer - 1 = s.delay_timer := by omega
  have hs0 : ¬ 0 < s.sound_timer → s.sound_timer - 1 = s.sound_timer := by omega
  simp only [tick]
  by_cases hd : 0 < s.delay_timer <;> by_cases hs : 0 < s.sound_timer <;>
    simp [hd, hs, hd0, hs0]

theorem tick_snd (s : Chip8State) :
    (tick s).2 = if s.sound_timer = 1 then [LogMsg.soundEnd] else [] := by
  simp only [tick]
  by_cases hd : 0 < s.delay_timer <;> by_cases hs : 0 < s.sound_timer <;>
    simp [hd, hs] <;> omega

theorem step_opcode (s : Chip8State) : (stepS s).opcode = emuFetch s := by
  simp only [stepS, emulate_cycle]
  split
  · exact execOp_opcode _ _
  · rw [tick_fst]
    exact execOp_opcode _ _

/-! ## Claim theorems (concrete) -/

/-- C1: claimed: an `FX07` step sets `Vx` to the pre-step delay timer and
advances `pc` by exactly 2 (and every completed F-family handler advances
`pc` by exactly 2).  The code at this input: `V0` does receive the delay
timer's pre-step value 5, but `pc` advances from 0x200 to 0x204 — by 4,
not 2 — and a spurious "Unknown opcode" diagnostic is emitted, because
the `case 0xF000:` of the switch has no `break` and falls through into
`default:`. -/
theorem fx07_pc_advances_by_four :
    (stepS c1state).V 0 = 5 ∧ (stepS c1state).V 0 = c1state.delay_timer ∧
    c1state.pc = 0x200 ∧ (stepS c1state).pc = 0x204 ∧ (stepS c1state).pc ≠ 0x202 ∧
    stepLog c1state = [LogMsg.unknown 0xF007] ∧ (stepS c1state).delay_timer = 4 := by
  decide

/-- C2: claimed: a `2NNN` call followed by a `00EE` return restores `pc` to
the original `pc + 2` and restores the stack pointer.  The code at this
input: the call pushes the return address `0x202` into an `unsigned char`
stack cell, truncating it to `0x02`; the return pops `0x02`, so the final
`pc` is `0x0002`, not `0x0202`.  The stack pointer is restored. -/
theorem call_return_truncates_return_address :
    c2state.pc = 0x200 ∧ c2state.sp = 0 ∧
    (stepS c2state).pc = 0x400 ∧ (stepS c2state).sp = 1 ∧
    rd8 (stepS c2state).stack 0 = 0x02 ∧
    (stepS (stepS c2state)).sp = 0 ∧
    (stepS (stepS c2state)).pc = 0x02 ∧ (stepS (stepS c2state)).pc ≠ 0x202 := by
  decide

/-- C3 counterexample: at the concrete state `c3state` with `pc = 4095 > 4094`
the step does not fail: it reads the fetch addresses 4095 and 4096 — the
latter outside `[0, 4095]` — decodes opcode 0, and executes it normally
(`pc` advances to 4097, the unknown-opcode diagnostic is logged). -/
theorem fetch_oob_counterexample :
    4094 < c3state.pc ∧ 4096 ∈ fetchAddrs c3state ∧ ¬ 4096 ≤ 4095 ∧
    (stepS c3state).pc = 4097 ∧ stepLog c3state = [LogMsg.unknown 0] := by
  decide

/-- C4 counterexample: opcode 0x5011 is not one of the 35 standard CHIP-8
instructions, yet at `c4state` (where `V0 = V1`) the step advances `pc`
by 4 — the `0x5000` family handler never inspects the low nibble, so
0x5011 executes as the `5XY0` skip — and emits no diagnostic at all. -/
theorem unknown_5xy1_executes_as_skip :
    emuFetch c4state = 0x5011 ∧ c4state.pc = 0x200 ∧
    (stepS c4state).pc = 0x204 ∧ (stepS c4state).pc ≠ 0x202 ∧
    stepLog c4state = [] := by
  decide

/-- C5: claimed: `FX33` writes the BCD digits whenever `I + 2 < 4096`, and
logs/skips only when `I + 2 ≥ 4096`.  The code checks `I < 4093` instead:
at `I = 4093` (where `I + 2 = 4095 < 4096`, all three cells in bounds) it
logs "Memory access out of bounds!" and writes nothing, while at
`I = 4092` it writes the digits 1, 5, 6 of `V0 = 156`.  (The trailing
"Unknown opcode" entries come from the F-family fall-through; `I` itself
is never modified.) -/
theorem fx33_bounds_check_off_by_one :
    c5state.I + 2 = 4095 ∧ (stepS c5state).mem = c5state.mem ∧
    stepLog c5state = [LogMsg.memOOB, LogMsg.unknown 0xF033] ∧
    (stepS c5state).I = 4093 ∧
    rd8 (stepS c5state2).mem 4092 = 1 ∧ rd8 (stepS c5state2).mem 4093 = 5 ∧
    rd8 (stepS c5state2).mem 4094 = 6 ∧ (stepS c5state2).I = 4092 ∧
    stepLog c5state2 = [LogMsg.unknown 0xF033] := by
  refine ⟨by decide, rfl, ?_, ?_, ?_, ?_, ?_, ?_, ?_⟩ <;> decide

/-- C7: claimed: `FX0A` with no key pressed leaves the machine (including
timers) unchanged, and once a key is pressed the next step stores the
lowest pressed key index in `Vx` and advances `pc` by exactly 2.  The
code at this input: the waiting step is indeed a no-op (pc, registers and
both timers untouched, no diagnostics, no tick); after `set_key 3`, the
next step stores 3 in `V2` — but advances `pc` from 0x200 to 0x204 (by 4,
not 2) and logs "Unknown opcode", because `case 0xF000:` falls through
into `default:`. -/
theorem fx0a_wait_ok_but_pc_advances_by_four :
    (stepS c7state).pc = c7state.pc ∧ (stepS c7state).V = c7state.V ∧
    (stepS c7state).delay_timer = 3 ∧ (stepS c7state).sound_timer = 1 ∧
    stepLog c7state = [] ∧
    (stepS c7after).V 2 = 3 ∧
    (stepS c7after).pc = 0x204 ∧ (stepS c7after).pc ≠ 0x202 ∧
    stepLog c7after = [LogMsg.unknown 0xF20A, LogMsg.soundEnd] := by
  refine ⟨by decide, rfl, ?_, ?_, ?_, ?_, ?_, ?_, ?_⟩ <;> decide

/-- C8 counterexample: drawing the same sprite twice with opcode 0xDF01
(`x = 0xF`) does not restore the framebuffer, even though `I`, memory and
the registers `VF` (= `Vx`) and `V0` (= `Vy`) are identical before both
draws: during the second draw the collision check sets `V[0xF]` mid-loop,
which shifts the x-coordinate of the remaining sprite bits.  Pixel 1 is a
target pixel of the draw, starts clear, and is still set after the second
draw (and the stray pixel 2 has been set). -/
theorem double_draw_not_involutive_for_xF :
    rd8 c8s1.V 15 = rd8 c8state.V 15 ∧
    1 ∈ targets c8state.mem c8state.I (rd8 c8state.V 15) (rd8 c8state.V 0) 1 ∧
    rd8 c8state.gfx 1 = 0 ∧ rd8 c8s2.gfx 1 = 1 ∧ rd8 c8s2.gfx 2 = 1 := by
  decide

/-! ## Dispatch lemmas -/

theorem execOp_unknown0 (s : Chip8State) (op : Nat) (h : op / 4096 = 0)
    (hE0 : op % 256 ≠ 0xE0) (hEE : op % 256 ≠ 0xEE) :
    execOp s op = ({ s with pc := (s.pc + 2) % 65536 }, [LogMsg.unknown op], false) := by
  unfold execOp
  dsimp only
  rw [if_pos h, if_neg hE0, if_neg hEE]

theorem execOp_ret_underflow (s : Chip8State) (op : Nat) (h : op / 4096 = 0)
    (hEE : op % 256 = 0xEE) (hsp : s.sp = 0) :
    execOp s op = (s, [LogMsg.underflow], true) := by
  unfold execOp
  dsimp only
  rw [if_pos h, if_neg (show ¬ op % 256 = 0xE0 by omega), if_pos hEE,
    if_neg (show ¬ 0 < s.sp by omega)]

theorem execOp_call_overflow (s : Chip8State) (op : Nat) (h : op / 4096 = 2)
    (hsp : 16 ≤ s.sp) :
    execOp s op = (s, [LogMsg.overflow], true) := by
  unfold execOp
  dsimp only
  rw [if_neg (show ¬ op / 4096 = 0 by omega), if_neg (show ¬ op / 4096 = 1 by omega),
    if_pos h, if_pos hsp]

theorem execOp_fam8 (s : Chip8State) (op : Nat) (h : op / 4096 = 8) :
    execOp s op =
      ({ s with V := (exec8 s.V op).1, pc := (s.pc + 2) % 65536 }, (exec8 s.V op).2, false) := by
  unfold execOp
  dsimp only
  rw [if_neg (show ¬ op / 4096 = 0 by omega), if_neg (show ¬ op / 4096 = 1 by omega),
    if_neg (show ¬ op / 4096 = 2 by omega), if_neg (show ¬ op / 4096 = 3 by omega),
    if_neg (show ¬ op / 4096 = 4 by omega), if_neg (show ¬ op / 4096 = 5 by omega),
    if_neg (show ¬ op / 4096 = 6 by omega), if_neg (show ¬ op / 4096 = 7 by omega),
    if_pos h]

theorem execOp_famD (s : Chip8State) (op : Nat) (h : op / 4096 = 13) :
    execOp s op = (execD s op, [], false) := by
  unfold execOp
  dsimp only
  rw [if_neg (show ¬ op / 4096 = 0 by omega), if_neg (show ¬ op / 4096 = 1 by omega),
    if_neg (show ¬ op / 4096 = 2 by omega), if_neg (show ¬ op / 4096 = 3 by omega),
    if_neg (show ¬ op / 4096 = 4 by omega), if_neg (show ¬ op / 4096 = 5 by omega),
    if_neg (show ¬ op / 4096 = 6 by omega), if_neg (show ¬ op / 4096 = 7 by omega),
    if_neg (show ¬ op / 4096 = 8 by omega), if_neg (show ¬ op / 4096 = 9 by omega),
    if_neg (show ¬ op / 4096 = 10 by omega), if_neg (show ¬ op / 4096 = 11 by omega),
    if_neg (show ¬ op / 4096 = 12 by omega), if_pos h]

theorem execOp_famE_unknown (s : Chip8State) (op : Nat) (h : op / 4096 = 14)
    (h9E : op % 256 ≠ 0x9E) (hA1 : op % 256 ≠ 0xA1) :
    execOp s op = ({ s with pc := (s.pc + 2) % 65536 }, [LogMsg.unknown op], false) := by
  unfold execOp
  dsimp only
  rw [if_neg (show ¬ op / 4096 = 0 by omega), if_neg (show ¬ op / 4096 = 1 by omega),
    if_neg (show ¬ op / 4096 = 2 by omega), if_neg (show ¬ op / 4096 = 3 by omega),
    if_neg (show ¬ op / 4096 = 4 by omega), if_neg (show ¬ op / 4096 = 5 by omega),
    if_neg (show ¬ op / 4096 = 6 by omega), if_neg (show ¬ op / 4096 = 7 by omega),
    if_neg (show ¬ op / 4096 = 8 by omega), if_neg (show ¬ op / 4096 = 9 by omega),
    if_neg (show ¬ op / 4096 = 10 by omega), if_neg (show ¬ op / 4096 = 11 by omega),
    if_neg (show ¬ op / 4096 = 12 by omega), if_neg (show ¬ op / 4096 = 13 by omega),
    if_pos h, if_neg h9E, if_neg hA1]

theorem execOp_famF (s : Chip8State) (op : Nat) (h : op / 4096 = 15) :
    execOp s op =
      (if (execF s op).2.2 = true then execF s op
       else ({ (execF s op).1 with pc := ((execF s op).1.pc + 2) % 65536 },
             (execF s op).2.1 ++ [LogMsg.unknown op], false)) := by
  unfold execOp
  dsimp only
  rw [if_neg (show ¬ op / 4096 = 0 by omega), if_neg (show ¬ op / 4096 = 1 by omega),
    if_neg (show ¬ op / 4096 = 2 by omega), if_neg (show ¬ op / 4096 = 3 by omega),
    if_neg (show ¬ op / 4096 = 4 by omega), if_neg (show ¬ op / 4096 = 5 by omega),
    if_neg (show ¬ op / 4096 = 6 by omega), if_neg (show ¬ op / 4096 = 7 by omega),
    if_neg (show ¬ op / 4096 = 8 by omega), if_neg (show ¬ op / 4096 = 9 by omega),
    if_neg (show ¬ op / 4096 = 10 by omega), if_neg (show ¬ op / 4096 = 11 by omega),
    if_neg (show ¬ op / 4096 = 12 by omega), if_neg (show ¬ op / 4096 = 13 by omega),
    if_neg (show ¬ op / 4096 = 14 by omega)]

theorem execF_unknown (s : Chip8State) (op : Nat)
    (h : op % 256 ∉ ([0x07, 0x0A, 0x15, 0x18, 0x1E, 0x29, 0x33, 0x55, 0x65] : List Nat)) :
    execF s op = ({ s with pc := (s.pc + 2) % 65536 }, [LogMsg.unknown op], false) := by
  simp only [List.mem_cons, List.not_mem_nil, or_false, not_or] at h
  obtain ⟨n1, n2, n3, n4, n5, n6, n7, n8, n9⟩ := h
  unfold execF
  dsimp only
  rw [if_neg n1, if_neg n2, if_neg n3, if_neg n4, if_neg n5, if_neg n6, if_neg n7,
    if_neg n8, if_neg n9]

theorem exec8_unknown (V : Nat → Nat) (op : Nat)
    (h : op % 16 ∉ ([0, 1, 2, 3, 4, 5, 6, 7, 14] : List Nat)) :
    exec8 V op = (V, [LogMsg.unknown op]) := by
  simp only [List.mem_cons, List.not_mem_nil, or_false, not_or] at h
  obtain ⟨n1, n2, n3, n4, n5, n6, n7, n8, n9⟩ := h
  unfold exec8
  dsimp only
  rw [if_neg n1, if_neg n2, if_neg n3, if_neg n4, if_neg n5, if_neg n6, if_neg n7,
    if_neg n8, if_neg n9]

theorem exec8_k4 (V : Nat → Nat) (op : Nat) (h : op % 16 = 4) :
    exec8 V op =
      (upd (upd V 15 (if 255 - rd8 V (op / 256 % 16) < rd8 V (op / 16 % 16) then 1 else 0))
        (op / 256 % 16)
        ((rd8 (upd V 15 (if 255 - rd8 V (op / 256 % 16) < rd8 V (op / 16 % 16) then 1 else 0))
            (op / 256 % 16) +
          rd8 (upd V 15 (if 255 - rd8 V (op / 256 % 16) < rd8 V (op / 16 % 16) then 1 else 0))
            (op / 16 % 16)) % 256), []) := by
  unfold exec8
  dsimp only
  rw [if_neg (show ¬ op % 16 = 0 by omega), if_neg (show ¬ op % 16 = 1 by omega),
    if_neg (show ¬ op % 16 = 2 by omega), if_neg (show ¬ op % 16 = 3 by omega), if_pos h]

/-! ## Step assembly lemmas -/

theorem step_of_execOp_normal {s : Chip8State} {s2 : Chip8State} {lg : List LogMsg}
    (h : execOp { s with opcode := emuFetch s } (emuFetch s) = (s2, lg, false)) :
    stepS s = { s2 with delay_timer := s2.delay_timer - 1, sound_timer := s2.sound_timer - 1 } ∧
    stepLog s = lg ++ (if s2.sound_timer = 1 then [LogMsg.soundEnd] else []) := by
  constructor
  · simp only [stepS, emulate_cycle, h]
    simp [tick_fst]
  · simp only [stepLog, emulate_cycle, h]
    simp [tick_snd]

theorem step_of_execOp_early {s : Chip8State} {s2 : Chip8State} {lg : List LogMsg}
    (h : execOp { s with opcode := emuFetch s } (emuFetch s) = (s2, lg, true)) :
    stepS s = s2 ∧ stepLog s = lg := by
  constructor
  · simp [stepS, emulate_cycle, h]
  · simp [stepLog, emulate_cycle, h]

/-- C10: every step that fetches a `DXYN` instruction (top nibble 0xD) sets
the draw flag to true, regardless of whether any framebuffer pixel changed —
including `N = 0`, all sprite bits clear, or every row address out of
bounds: `drawFlag = true` is executed unconditionally after the loops. -/
theorem dxyn_always_sets_drawFlag (s : Chip8State) (h : emuFetch s / 4096 = 13) :
    (stepS s).drawFlag = true := by
  obtain ⟨hs, -⟩ :=
    step_of_execOp_normal (execOp_famD { s with opcode := emuFetch s } (emuFetch s) h)
  rw [hs]
  rfl

/-- C6: a `2NNN` call fetched with the stack already full (`sp = 16`), or a
`00EE` return fetched with the stack already empty (`sp = 0`), short-circuits
the step: the post-state equals the pre-state except for the transient
`opcode` fetch latch — pc, stack, stack pointer, registers, memory,
framebuffer, keys, draw flag and both timers are all unchanged (the timer
tick is skipped) — and only the overflow/underflow diagnostic is emitted. -/
theorem stack_overflow_underflow_freeze (s : Chip8State) :
    ((emuFetch s / 4096 = 2 ∧ s.sp = 16) →
      stepS s = { s with opcode := emuFetch s } ∧ stepLog s = [LogMsg.overflow]) ∧
    ((emuFetch s / 4096 = 0 ∧ emuFetch s % 256 = 0xEE ∧ s.sp = 0) →
      stepS s = { s with opcode := emuFetch s } ∧ stepLog s = [LogMsg.underflow]) := by
  constructor
  · rintro ⟨h2, hsp⟩
    exact step_of_execOp_early (execOp_call_overflow _ _ h2 (le_of_eq hsp.symm))
  · rintro ⟨h0, hEE, hsp⟩
    exact step_of_execOp_early (execOp_ret_underflow _ _ h0 hEE hsp)

/-- C9: for every fetched `8XY4` (family 8, low nibble 4), the handler first
sets `VF` to 1 exactly when the pre-instruction values satisfy
`Vx + Vy > 255` (and to 0 otherwise), then — in that order, reading the
already-updated register file — sets `Vx` to the 8-bit wrapped sum
`Vx + Vy`, and advances `pc` by 2.  The carry test `V[y] > 0xFF - V[x]` of
the source is equivalent to `Vx + Vy > 255` since registers are bytes. -/
theorem add_8xy4_carry_then_sum (s : Chip8State)
    (h8 : emuFetch s / 4096 = 8) (h4 : emuFetch s % 16 = 4) :
    (stepS s).V =
      upd
        (upd s.V 15
          (if 255 < rd8 s.V (emuFetch s / 256 % 16) + rd8 s.V (emuFetch s / 16 % 16) then 1
           else 0))
        (emuFetch s / 256 % 16)
        ((rd8
            (upd s.V 15
              (if 255 < rd8 s.V (emuFetch s / 256 % 16) + rd8 s.V (emuFetch s / 16 % 16) then 1
               else 0))
            (emuFetch s / 256 % 16) +
          rd8
            (upd s.V 15
              (if 255 < rd8 s.V (emuFetch s / 256 % 16) + rd8 s.V (emuFetch s / 16 % 16) then 1
               else 0))
            (emuFetch s / 16 % 16)) % 256) ∧
    (stepS s).pc = (s.pc + 2) % 65536 := by
  obtain ⟨hs, -⟩ :=
    step_of_execOp_normal (execOp_fam8 { s with opcode := emuFetch s } (emuFetch s) h8)
  have hcarry :
      (if 255 - rd8 s.V (emuFetch s / 256 % 16) < rd8 s.V (emuFetch s / 16 % 16) then (1 : Nat)
       else 0) =
      (if 255 < rd8 s.V (emuFetch s / 256 % 16) + rd8 s.V (emuFetch s / 16 % 16) then 1
       else 0) := by
    have hx := rd8_lt s.V (emuFetch s / 256 % 16)
    by_cases hc : 255 - rd8 s.V (emuFetch s / 256 % 16) < rd8 s.V (emuFetch s / 16 % 16)
    · rw [if_pos hc, if_pos (by omega)]
    · rw [if_neg hc, if_neg (by omega)]
  refine ⟨?_, by rw [hs]⟩
  rw [hs]
  show (exec8 s.V (emuFetch s)).1 = _
  rw [exec8_k4 s.V (emuFetch s) h4]
  rw [hcarry]

/-- C3 (amended): for every state with `pc > 4094` the step does **not**
fail with an OutOfBounds error: no bounds check exists at the fetch stage.
The fetch reads memory indices `pc` and `pc + 1`, the latter being outside
`[0, 4095]` (an out-of-bounds array read, undefined behaviour in the C++
source), and the step proceeds to latch and execute the fetched opcode. -/
theorem fetch_unchecked_reads (s : Chip8State) (h : 4094 < s.pc) :
    s.pc + 1 ∈ fetchAddrs s ∧ 4095 < s.pc + 1 ∧ (stepS s).opcode = emuFetch s :=
  ⟨by simp [fetchAddrs], by omega, step_opcode s⟩

theorem pc_plus2_plus2 (a : Nat) : ((a + 2) % 65536 + 2) % 65536 = (a + 4) % 65536 := by
  omega

/-- C4 (amended): for every 16-bit opcode in families 0x0, 0x8 and 0xE that
is not a standard instruction, the step logs a diagnostic, advances `pc` by
exactly 2, never halts, and changes no machine state other than the
`opcode` fetch latch and the end-of-step timer tick.  This does **not**
extend to the other families the claim mentioned: opcodes `5XYk`/`9XYk`
with `k ≠ 0` execute as the `5XY0`/`9XY0` skips (see the counterexample),
and unrecognized F-family opcodes log the diagnostic twice and advance
`pc` by 4, because `case 0xF000:` falls through into `default:`. -/
theorem unrecognized_opcode_families (s : Chip8State) :
    ((emuFetch s / 4096 = 0 ∧ emuFetch s % 256 ≠ 0xE0 ∧ emuFetch s % 256 ≠ 0xEE) →
      stepS s =
        { s with opcode := emuFetch s, pc := (s.pc + 2) % 65536,
                 delay_timer := s.delay_timer - 1, sound_timer := s.sound_timer - 1 } ∧
      stepLog s =
        LogMsg.unknown (emuFetch s) ::
          (if s.sound_timer = 1 then [LogMsg.soundEnd] else [])) ∧
    ((emuFetch s / 4096 = 8 ∧ emuFetch s % 16 ∉ ([0, 1, 2, 3, 4, 5, 6, 7, 14] : List Nat)) →
      stepS s =
        { s with opcode := emuFetch s, pc := (s.pc + 2) % 65536,
                 delay_timer := s.delay_timer - 1, sound_timer := s.sound_timer - 1 } ∧
      stepLog s =
        LogMsg.unknown (emuFetch s) ::
          (if s.sound_timer = 1 then [LogMsg.soundEnd] else [])) ∧
    ((emuFetch s / 4096 = 14 ∧ emuFetch s % 256 ≠ 0x9E ∧ emuFetch s % 256 ≠ 0xA1) →
      stepS s =
        { s with opcode := emuFetch s, pc := (s.pc + 2) % 65536,
                 delay_timer := s.delay_timer - 1, sound_timer := s.sound_timer - 1 } ∧
      stepLog s =
        LogMsg.unknown (emuFetch s) ::
          (if s.sound_timer = 1 then [LogMsg.soundEnd] else [])) ∧
    ((emuFetch s / 4096 = 15 ∧
        emuFetch s % 256 ∉ ([0x07, 0x0A, 0x15, 0x18, 0x1E, 0x29, 0x33, 0x55, 0x65] : List Nat)) →
      stepS s =
        { s with opcode := emuFetch s, pc := (s.pc + 4) % 65536,
                 delay_timer := s.delay_timer - 1, sound_timer := s.sound_timer - 1 } ∧
      stepLog s =
        LogMsg.unknown (emuFetch s) :: LogMsg.unknown (emuFetch s) ::
          (if s.sound_timer = 1 then [LogMsg.soundEnd] else [])) := by
  refine ⟨?_, ?_, ?_, ?_⟩
  · rintro ⟨h0, hE0, hEE⟩
    obtain ⟨hs, hl⟩ := step_of_execOp_normal (execOp_unknown0 _ _ h0 hE0 hEE)
    exact ⟨hs, hl⟩
  · rintro ⟨h8, hk⟩
    have hOp := execOp_fam8 { s with opcode := emuFetch s } (emuFetch s) h8
    rw [exec8_unknown _ _ hk] at hOp
    obtain ⟨hs, hl⟩ := step_of_execOp_normal hOp
    exact ⟨hs, hl⟩
  · rintro ⟨hE, h9E, hA1⟩
    obtain ⟨hs, hl⟩ := step_of_execOp_normal (execOp_famE_unknown _ _ hE h9E hA1)
    exact ⟨hs, hl⟩
  · rintro ⟨hF, hnn⟩
    have hOp := execOp_famF { s with opcode := emuFetch s } (emuFetch s) hF
    rw [execF_unknown _ _ hnn] at hOp
    rw [if_neg Bool.false_ne_true] at hOp
    dsimp only at hOp
    rw [pc_plus2_plus2] at hOp
    obtain ⟨hs, hl⟩ := step_of_execOp_normal hOp
    exact ⟨hs, hl⟩

theorem process_cons (a : (Nat → Nat) × (Nat → Nat)) (i : Nat) (l : List Nat) :
    process a (i :: l) =
      process ((if rd8 a.2 i = 1 then upd a.1 15 1 else a.1),
               upd a.2 i (rd8 a.2 i ^^^ 1)) l := by
  simp [process]

theorem process_append (a : (Nat → Nat) × (Nat → Nat)) (l1 l2 : List Nat) :
    process a (l1 ++ l2) = process (process a l1) l2 := by
  simp [process, List.foldl_append]

theorem process_snd (l : List Nat) : ∀ a : (Nat → Nat) × (Nat → Nat),
    (process a l).2 = toggleList a.2 l := by
  induction l with
  | nil => intro a; rfl
  | cons i l ih =>
    intro a
    rw [process_cons, ih]
    rfl

theorem toggleList_cons (g : Nat → Nat) (i : Nat) (l : List Nat) :
    toggleList g (i :: l) = toggleList (upd g i (rd8 g i ^^^ 1)) l := rfl

theorem process_fst_rd8 {j : Nat} (hj : j ≠ 15) (l : List Nat) :
    ∀ a : (Nat → Nat) × (Nat → Nat), rd8 (process a l).1 j = rd8 a.1 j := by
  induction l with
  | nil => intro a; rfl
  | cons i l ih =>
    intro a
    rw [process_cons, ih]
    split
    · exact rd8_upd_ne _ _ hj
    · rfl

theorem xor1_lt_256 {v : Nat} (h : v < 256) : v ^^^ 1 < 256 := by
  have h256 : (256 : Nat) = 2 ^ 8 := by norm_num
  exact h256 ▸ Nat.xor_lt_two_pow (h256 ▸ h) (by norm_num)

theorem rd8_upd_toggle (g : Nat → Nat) (i : Nat) :
    rd8 (upd g i (rd8 g i ^^^ 1)) i = rd8 g i ^^^ 1 := by
  rw [rd8_upd_self]
  exact Nat.mod_eq_of_lt (xor1_lt_256 (rd8_lt g i))

theorem process_fst_15 (l : List Nat) (hl : l.Nodup) :
    ∀ a : (Nat → Nat) × (Nat → Nat),
      rd8 (process a l).1 15 =
        if ∃ i ∈ l, rd8 a.2 i = 1 then 1 else rd8 a.1 15 := by
  induction l with
  | nil => intro a; simp [process]
  | cons i l ih =>
    intro a
    obtain ⟨hi, hl'⟩ := List.nodup_cons.1 hl
    have hmem : ∀ j ∈ l, rd8 (upd a.2 i (rd8 a.2 i ^^^ 1)) j = rd8 a.2 j := fun j hj =>
      rd8_upd_ne _ _ (fun he => hi (he ▸ hj))
    have hiff : (∃ j ∈ l, rd8 (upd a.2 i (rd8 a.2 i ^^^ 1)) j = 1) ↔ ∃ j ∈ l, rd8 a.2 j = 1 := by
      constructor
      · rintro ⟨j, hj, hv⟩
        exact ⟨j, hj, by rwa [hmem j hj] at hv⟩
      · rintro ⟨j, hj, hv⟩
        exact ⟨j, hj, by rwa [hmem j hj]⟩
    rw [process_cons, ih hl']
    simp only [hiff, List.exists_mem_cons_iff]
    by_cases hc : rd8 a.2 i = 1
    · rw [if_pos (Or.inl hc)]
      split
      · rfl
      · simp [rd8_upd_self]
    · by_cases hex : ∃ j ∈ l, rd8 a.2 j = 1
      · rw [if_pos hex, if_pos (Or.inr hex)]
      · rw [if_neg (show ¬(rd8 a.2 i = 1 ∨ ∃ j ∈ l, rd8 a.2 j = 1) from fun h => h.elim hc hex),
          if_neg hex, if_neg hc]

theorem toggleList_rd8 (l : List Nat) (hl : l.Nodup) :
    ∀ (g : Nat → Nat) (p : Nat),
      rd8 (toggleList g l) p = if p ∈ l then rd8 g p ^^^ 1 else rd8 g p := by
  induction l with
  | nil => intro g p; simp [toggleList]
  | cons i l ih =>
    intro g p
    obtain ⟨hi, hl'⟩ := List.nodup_cons.1 hl
    rw [toggleList_cons, ih hl']
    by_cases hp : p ∈ l
    · have hpi : p ≠ i := fun he => hi (he ▸ hp)
      rw [if_pos hp, if_pos (List.mem_cons_of_mem i hp), rd8_upd_ne _ _ hpi]
    · rw [if_neg hp]
      by_cases hpi : p = i
      · subst hpi
        rw [if_pos (List.mem_cons_self p l), rd8_upd_toggle]
      · rw [rd8_upd_ne _ _ hpi, if_neg (by simp [hpi, hp])]

theorem toggleList_twice (l : List Nat) (hl : l.Nodup) (g : Nat → Nat) (p : Nat) :
    rd8 (toggleList (toggleList g l) l) p = rd8 g p := by
  rw [toggleList_rd8 l hl, toggleList_rd8 l hl]
  split
  · rw [Nat.xor_cancel_right]
  · rfl

theorem idx_lt_2048 (vx vy yy xx : Nat) : (vy + yy) % 32 * 64 + (vx + xx) % 64 < 2048 := by
  have h1 : (vy + yy) % 32 < 32 := Nat.mod_lt _ (by norm_num)
  have h2 : (vx + xx) % 64 < 64 := Nat.mod_lt _ (by norm_num)
  omega

theorem drawBit_set (mem : Nat → Nat) (iR x y yy xx vx vy : Nat)
    (a : (Nat → Nat) × (Nat → Nat)) (hvx : rd8 a.1 x = vx) (hvy : rd8 a.1 y = vy)
    (hbit : rd8 mem (iR + yy) &&& (0x80 >>> xx) ≠ 0) :
    drawBit mem iR x y yy xx a =
      ((if rd8 a.2 ((vy + yy) % 32 * 64 + (vx + xx) % 64) = 1 then upd a.1 15 1 else a.1),
       upd a.2 ((vy + yy) % 32 * 64 + (vx + xx) % 64)
         (rd8 a.2 ((vy + yy) % 32 * 64 + (vx + xx) % 64) ^^^ 1)) := by
  unfold drawBit
  dsimp only
  rw [if_pos hbit, hvx, hvy]
  rw [if_pos (idx_lt_2048 vx vy yy xx)]
  congr 1
  rw [if_congr (Iff.intro (fun h => h.2) (fun h => ⟨idx_lt_2048 vx vy yy xx, h⟩)) rfl rfl]

theorem drawBit_clear (mem : Nat → Nat) (iR x y yy xx : Nat)
    (a : (Nat → Nat) × (Nat → Nat))
    (hbit : ¬ rd8 mem (iR + yy) &&& (0x80 >>> xx) ≠ 0) :
    drawBit mem iR x y yy xx a = a := by
  unfold drawBit
  dsimp only
  rw [if_neg hbit]

theorem drawBits_sim (mem : Nat → Nat) (iR x y yy vx vy : Nat)
    (hx : x ≠ 15) (hy : y ≠ 15) :
    ∀ (l : List Nat) (a : (Nat → Nat) × (Nat → Nat)),
      rd8 a.1 x = vx → rd8 a.1 y = vy →
      l.foldl (fun b xx => drawBit mem iR x y yy xx b) a =
        process a
          ((l.filter (fun xx => rd8 mem (iR + yy) &&& (0x80 >>> xx) != 0)).map
            (fun xx => (vy + yy) % 32 * 64 + (vx + xx) % 64)) := by
  intro l
  induction l with
  | nil => intro a _ _; rfl
  | cons xx l ih =>
    intro a hvx hvy
    by_cases hbit : rd8 mem (iR + yy) &&& (0x80 >>> xx) ≠ 0
    · have hfil : (xx :: l).filter (fun xx => rd8 mem (iR + yy) &&& (0x80 >>> xx) != 0) =
          xx :: l.filter (fun xx => rd8 mem (iR + yy) &&& (0x80 >>> xx) != 0) := by
        simp [List.filter_cons, hbit]
      rw [hfil, List.map_cons, List.foldl_cons, process_cons,
        drawBit_set mem iR x y yy xx vx vy a hvx hvy hbit]
      apply ih
      · split
        · rw [rd8_upd_ne _ _ hx]; exact hvx
        · exact hvx
      · split
        · rw [rd8_upd_ne _ _ hy]; exact hvy
        · exact hvy
    · have hfil : (xx :: l).filter (fun xx => rd8 mem (iR + yy) &&& (0x80 >>> xx) != 0) =
          l.filter (fun xx => rd8 mem (iR + yy) &&& (0x80 >>> xx) != 0) := by
        simp [List.filter_cons, hbit]
      rw [hfil, List.foldl_cons, drawBit_clear mem iR x y yy xx a hbit]
      exact ih a hvx hvy

theorem drawRow_sim (mem : Nat → Nat) (iR x y yy vx vy : Nat)
    (hx : x ≠ 15) (hy : y ≠ 15) (a : (Nat → Nat) × (Nat → Nat))
    (hvx : rd8 a.1 x = vx) (hvy : rd8 a.1 y = vy) :
    drawRow mem iR x y yy a = process a (rowTargets mem iR vx vy yy) := by
  unfold drawRow rowTargets
  by_cases h : iR + yy < 4096
  · rw [if_pos h, if_pos h]
    exact drawBits_sim mem iR x y yy vx vy hx hy (List.range 8) a hvx hvy
  · rw [if_neg h, if_neg h]
    rfl

theorem targets_succ (mem : Nat → Nat) (iR vx vy n : Nat) :
    targets mem iR vx vy (n + 1) = targets mem iR vx vy n ++ rowTargets mem iR vx vy n := by
  simp [targets, List.range_succ]

theorem drawLoop_sim (mem : Nat → Nat) (iR x y vx vy : Nat)
    (hx : x ≠ 15) (hy : y ≠ 15) :
    ∀ (n : Nat) (a : (Nat → Nat) × (Nat → Nat)),
      rd8 a.1 x = vx → rd8 a.1 y = vy →
      drawLoop mem iR x y n a = process a (targets mem iR vx vy n) := by
  intro n
  induction n with
  | zero => intro a _ _; rfl
  | succ m ih =>
    intro a hvx hvy
    have hloop : drawLoop mem iR x y (m + 1) a =
        drawRow mem iR x y m (drawLoop mem iR x y m a) := by
      unfold drawLoop
      rw [List.range_succ, List.foldl_append]
      rfl
    rw [hloop, ih a hvx hvy, targets_succ, process_append]
    exact drawRow_sim mem iR x y m vx vy hx hy _
      (by rw [process_fst_rd8 hx]; exact hvx)
      (by rw [process_fst_rd8 hy]; exact hvy)

theorem rowTargets_nodup (mem : Nat → Nat) (iR vx vy yy : Nat) :
    (rowTargets mem iR vx vy yy).Nodup := by
  unfold rowTargets
  split
  · apply List.Nodup.map_on
    · intro a ha b hb heq
      have ha' : a < 8 := List.mem_range.1 (List.mem_of_mem_filter ha)
      have hb' : b < 8 := List.mem_range.1 (List.mem_of_mem_filter hb)
      omega
    · exact (List.nodup_range 8).filter _
  · exact List.nodup_nil

theorem rowTargets_div {mem : Nat → Nat} {iR vx vy yy a : Nat}
    (h : a ∈ rowTargets mem iR vx vy yy) : a / 64 = (vy + yy) % 32 := by
  unfold rowTargets at h
  split at h
  · obtain ⟨xx, hxx, rfl⟩ := List.mem_map.1 h
    have hcol : (vx + xx) % 64 < 64 := Nat.mod_lt _ (by norm_num)
    omega
  · simp at h

theorem targets_nodup (mem : Nat → Nat) (iR vx vy : Nat) :
    ∀ n, n ≤ 16 → (targets mem iR vx vy n).Nodup := by
  intro n
  induction n with
  | zero => intro _; simp [targets]
  | succ m ih =>
    intro hn
    rw [targets_succ]
    refine List.nodup_append.2 ⟨ih (by omega), rowTargets_nodup mem iR vx vy m, ?_⟩
    intro a ha hb
    obtain ⟨yy, hyy, hrow⟩ := List.mem_flatMap.1 ha
    have h1 := rowTargets_div hrow
    have h2 := rowTargets_div hb
    have hyy' : yy < m := List.mem_range.1 hyy
    omega

theorem execD_spec (s : Chip8State) (op : Nat)
    (hx : op / 256 % 16 ≠ 15) (hy : op / 16 % 16 ≠ 15) :
    (execD s op).gfx =
      toggleList s.gfx
        (targets s.mem s.I (rd8 s.V (op / 256 % 16)) (rd8 s.V (op / 16 % 16)) (op % 16)) ∧
    ((∃ i ∈ targets s.mem s.I (rd8 s.V (op / 256 % 16)) (rd8 s.V (op / 16 % 16)) (op % 16),
        rd8 s.gfx i = 1) → rd8 (execD s op).V 15 = 1) ∧
    (¬ (∃ i ∈ targets s.mem s.I (rd8 s.V (op / 256 % 16)) (rd8 s.V (op / 16 % 16)) (op % 16),
        rd8 s.gfx i = 1) → rd8 (execD s op).V 15 = 0) ∧
    (∀ j, j ≠ 15 → rd8 (execD s op).V j = rd8 s.V j) ∧
    (execD s op).mem = s.mem ∧ (execD s op).I = s.I ∧
    (execD s op).pc = (s.pc + 2) % 65536 ∧ (execD s op).drawFlag = true := by
  have hsim := drawLoop_sim s.mem s.I (op / 256 % 16) (op / 16 % 16)
    (rd8 s.V (op / 256 % 16)) (rd8 s.V (op / 16 % 16)) hx hy (op % 16)
    (upd s.V 15 0, s.gfx) (rd8_upd_ne _ _ hx) (rd8_upd_ne _ _ hy)
  unfold execD
  dsimp only
  rw [hsim]
  have hnodup := targets_nodup s.mem s.I (rd8 s.V (op / 256 % 16)) (rd8 s.V (op / 16 % 16))
    (op % 16) (Nat.le_of_lt (Nat.mod_lt op (by norm_num)))
  refine ⟨process_snd _ _, ?_, ?_, ?_, rfl, rfl, rfl, rfl⟩
  · intro hex
    rw [process_fst_15 _ hnodup _, if_pos hex]
  · intro hex
    rw [process_fst_15 _ hnodup _, if_neg hex, rd8_upd_self]
  · intro j hj
    rw [process_fst_rd8 hj, rd8_upd_ne _ _ hj]

/-- C8 (amended): executing the same `DXYN` draw twice in succession (same
`I`, memory, `Vx`, `Vy`, `N`) returns every framebuffer pixel to its value
before the first draw, and the second draw sets `VF` to 1 if the first
draw left any of the sprite's target pixels set — **provided neither X nor
Y is the flag register 0xF**.  When `X = 0xF` or `Y = 0xF` the handler's
mid-loop writes to `V[0xF]` shift the sprite coordinates and the law fails
(see the counterexample). -/
theorem dxyn_double_draw (s : Chip8State) (op : Nat)
    (hx : op / 256 % 16 ≠ 15) (hy : op / 16 % 16 ≠ 15) :
    (∀ p, rd8 (execD (execD s op) op).gfx p = rd8 s.gfx p) ∧
    ((∃ i ∈ targets s.mem s.I (rd8 s.V (op / 256 % 16)) (rd8 s.V (op / 16 % 16)) (op % 16),
        rd8 (execD s op).gfx i = 1) →
      rd8 (execD (execD s op) op).V 15 = 1) := by
  obtain ⟨hg1, hf1, -, hV1, hm1, hI1, -, -⟩ := execD_spec s op hx hy
  obtain ⟨hg2, hf2, -, hV2, hm2, hI2, -, -⟩ := execD_spec (execD s op) op hx hy
  have hTnodup := targets_nodup s.mem s.I (rd8 s.V (op / 256 % 16)) (rd8 s.V (op / 16 % 16))
    (op % 16) (Nat.le_of_lt (Nat.mod_lt op (by norm_num)))
  have hT2 :
      targets (execD s op).mem (execD s op).I (rd8 (execD s op).V (op / 256 % 16))
        (rd8 (execD s op).V (op / 16 % 16)) (op % 16) =
      targets s.mem s.I (rd8 s.V (op / 256 % 16)) (rd8 s.V (op / 16 % 16)) (op % 16) := by
    rw [hm1, hI1, hV1 _ hx, hV1 _ hy]
  rw [hT2] at hg2 hf2
  constructor
  · intro p
    rw [hg2, hg1]
    exact toggleList_twice _ hTnodup s.gfx p
  · intro hex
    exact hf2 hex

/-- Witness for C3. -/
theorem fetch_unchecked_reads_witness :
    4094 < c3state.pc ∧
    (c3state.pc + 1 ∈ fetchAddrs c3state ∧ 4095 < c3state.pc + 1 ∧
     (stepS c3state).opcode = emuFetch c3state) :=
  ⟨by decide, fetch_unchecked_reads c3state (by decide)⟩

/-- Witness for C4. -/
theorem unrecognized_opcode_families_witness :
    (emuFetch c4unknown / 4096 = 0 ∧ emuFetch c4unknown % 256 ≠ 0xE0 ∧
     emuFetch c4unknown % 256 ≠ 0xEE) ∧
    (stepS c4unknown).pc = 0x202 ∧ (stepS c4unknown).delay_timer = 8 ∧
    (stepS c4unknown).V = c4unknown.V ∧
    stepLog c4unknown = [LogMsg.unknown 1] := by
  have h := (unrecognized_opcode_families c4unknown).1 ⟨by decide, by decide, by decide⟩
  refine ⟨⟨by decide, by decide, by decide⟩, ?_, ?_, ?_, ?_⟩
  · rw [h.1]; decide
  · rw [h.1]; decide
  · rw [h.1]
  · rw [h.2]; decide

/-- Witness for C6. -/
theorem stack_overflow_underflow_freeze_witness :
    (stepS c6over = { c6over with opcode := 0x2300 } ∧ stepLog c6over = [LogMsg.overflow]) ∧
    (stepS c6under = { c6under with opcode := 0x00EE } ∧ stepLog c6under = [LogMsg.underflow]) := by
  constructor
  · exact (stack_overflow_underflow_freeze c6over).1 ⟨by decide, rfl⟩
  · exact (stack_overflow_underflow_freeze c6under).2 ⟨by decide, by decide, rfl⟩

/-- Witness for C8. -/
theorem dxyn_double_draw_witness :
    (0 ∈ targets w8state.mem w8state.I (rd8 w8state.V 0) (rd8 w8state.V 1) 1 ∧
     rd8 (execD w8state 0xD011).gfx 0 = 1) ∧
    rd8 (execD (execD w8state 0xD011) 0xD011).gfx 0 = rd8 w8state.gfx 0 ∧
    rd8 (execD (execD w8state 0xD011) 0xD011).V 15 = 1 := by
  have h := dxyn_double_draw w8state 0xD011 (by decide) (by decide)
  exact ⟨⟨by decide, by decide⟩, h.1 0, h.2 ⟨0, by decide, by decide⟩⟩

/-- Witness for C9. -/
theorem add_8xy4_carry_then_sum_witness :
    (emuFetch c9state / 4096 = 8 ∧ emuFetch c9state % 16 = 4) ∧
    (stepS c9state).V 0 = 0x00 ∧ (stepS c9state).V 15 = 1 ∧
    (stepS c9state).pc = 0x202 ∧
    (stepS c9state2).V 0 = 0x02 ∧ (stepS c9state2).V 15 = 0 := by
  have h1 := add_8xy4_carry_then_sum c9state (by decide) (by decide)
  have h2 := add_8xy4_carry_then_sum c9state2 (by decide) (by decide)
  refine ⟨⟨by decide, by decide⟩, ?_, ?_, ?_, ?_, ?_⟩
  · rw [h1.1]; decide
  · rw [h1.1]; decide
  · rw [h1.2]; decide
  · rw [h2.1]; decide
  · rw [h2.1]; decide

/-- Witness for C10. -/
theorem dxyn_always_sets_drawFlag_witness :
    emuFetch c10state / 4096 = 13 ∧ (stepS c10state).drawFlag = true :=
  ⟨by decide, dxyn_always_sets_drawFlag c10state (by decide)⟩
